import Mathlib

/-!
Shallow embedding of markhj/rust-config-reader.

The repository is a sequence of historical revisions of one small library:
`src/lib.rs` and `src/group.rs` belong to the structured revision
(`Config` holding `Group`s plus a `cursor`), while `src/config.rs` and
`src/config_read_error.rs` belong to the flattened revision
(`Config.map : HashMap<String, HashMap<String, String>>` with a two-level
`get`).  Both data models are embedded below; the parsing pipeline of
`lib.rs` drives the structured one.

Lines are modelled as `List Char`.  Lines are produced by
`BufRead::lines`, which splits on `'\n'` and strips a trailing `'\r'`, so
a line never contains a newline; consequently the `regex` crate's rule
that `.` does not match `'\n'` and that `$` anchors at the end of the
haystack coincide with "rest of the line" below, and the regular
expressions of `get_line_syntax_regex` are translated as direct functions
on the line.
-/

namespace RustConfigReader

/-- Unicode White_Space, the class matched by Rust `char::is_whitespace`
and by the regex crate's `\s`. -/
def isWs (c : Char) : Bool :=
  c.toNat = 0x09 || c.toNat = 0x0A || c.toNat = 0x0B || c.toNat = 0x0C
    || c.toNat = 0x0D || c.toNat = 0x20 || c.toNat = 0x85 || c.toNat = 0xA0
    || c.toNat = 0x1680 || c.toNat = 0x2000 || c.toNat = 0x2001
    || c.toNat = 0x2002 || c.toNat = 0x2003 || c.toNat = 0x2004
    || c.toNat = 0x2005 || c.toNat = 0x2006 || c.toNat = 0x2007
    || c.toNat = 0x2008 || c.toNat = 0x2009 || c.toNat = 0x200A
    || c.toNat = 0x2028 || c.toNat = 0x2029 || c.toNat = 0x202F
    || c.toNat = 0x205F || c.toNat = 0x3000

/-- The character class `[a-z]`. -/
def isLowerAlpha (c : Char) : Bool :=
  97 ≤ c.toNat && c.toNat ≤ 122

/-- The character class `[a-z_]` (tail characters of a key or group name). -/
def isKeyChar (c : Char) : Bool :=
  isLowerAlpha c || c = '_'

/-- The character class `[0-9]`. -/
def isDigit (c : Char) : Bool :=
  48 ≤ c.toNat && c.toNat ≤ 57

/-- Rust `str::trim`: strip leading and trailing whitespace. -/
def trim (l : List Char) : List Char :=
  ((l.dropWhile isWs).reverse.dropWhile isWs).reverse

/-- Regex `comment: ^#` — `is_match`: the line starts with `#`.
(`^#` is unanchored at the right, so only the first character matters.) -/
def comment_match (l : List Char) : Bool :=
  l.head? = some '#'

/-- Regex `group: ^\[([a-z][a-z_]*)\]$` — match and capture group 1.
The name characters cannot be `]`, so the match is the maximal
`[a-z][a-z_]*` run after `[`, which must be followed by exactly `]`. -/
def group_split (l : List Char) : Option (List Char) :=
  match l with
  | [] => none
  | c0 :: t =>
    if c0 = '[' then
      match t with
      | [] => none
      | c :: r =>
        if isLowerAlpha c then
          if r.dropWhile isKeyChar = [']'] then
            some (c :: r.takeWhile isKeyChar)
          else none
        else none
    else none

/-- Regex `empty_line: ^\s*$` — the line is empty or all whitespace. -/
def empty_line_match (l : List Char) : Bool :=
  l.all isWs

/-- One optional whitespace character, greedily: regex `\s?` prefers to
consume a whitespace character when one is present. -/
def dropOneWs (l : List Char) : List Char :=
  match l with
  | c :: t => if isWs c then t else l
  | [] => []

/-- Regex `item_any: ^([a-z][a-z_]*)\s?=\s?(.*?)$` — match and captures.
Key characters cannot be whitespace or `=`, so the key capture is the
maximal `[a-z][a-z_]*` run from the start; it must be followed by at most
one whitespace character and then a literal `=`.  After `=`, the greedy
`\s?` consumes one whitespace character when present, and the lazy
`(.*?)` followed by `$` captures the rest of the line. -/
def item_split (l : List Char) : Option (List Char × List Char) :=
  match l with
  | [] => none
  | c :: t =>
    if isLowerAlpha c then
      let key := c :: t.takeWhile isKeyChar
      match t.dropWhile isKeyChar with
      | [] => none
      | d :: v =>
        if d = '=' then some (key, dropOneWs v)
        else if isWs d then
          match v with
          | [] => none
          | e :: v2 => if e = '=' then some (key, dropOneWs v2) else none
        else none
    else none

/-- Regex `has_quotes: ^"(.*?)"$` — match and capture: the value starts
and ends with `"` (length at least 2) and the capture is everything in
between. -/
def has_quotes_split (l : List Char) : Option (List Char) :=
  match l with
  | [] => none
  | c :: t =>
    if c = '"' then
      match t.reverse with
      | [] => none
      | d :: m => if d = '"' then some m.reverse else none
    else none

/-- Regex `has_whitespace: \s+` — `is_match`: the value contains a
whitespace character somewhere (unanchored). -/
def has_whitespace_match (l : List Char) : Bool :=
  l.any isWs

/-- Regex `non_string_type: ^([0-9]+|true|false|yes|no|on|off)$` —
`is_match`: the whole value is a nonempty digit run or one of the six
boolean-looking words. -/
def non_string_type_match (l : List Char) : Bool :=
  (l ≠ [] && l.all isDigit)
    || l = ['t', 'r', 'u', 'e'] || l = ['f', 'a', 'l', 's', 'e']
    || l = ['y', 'e', 's'] || l = ['n', 'o']
    || l = ['o', 'n'] || l = ['o', 'f', 'f']

/-- `StringStrictness` from `src/lib.rs`. -/
inductive StringStrictness where
  | Loose
  | Forgivable
  | Very
deriving DecidableEq

/-- `StringStrictnessBehavior` from `src/lib.rs`. -/
inductive StringStrictnessBehavior where
  | Panic
  | Ignore
deriving DecidableEq

/-- `Options` from `src/lib.rs`. -/
structure Options where
  string_strictness : StringStrictness
  string_strictness_behavior : StringStrictnessBehavior
deriving DecidableEq

/-- `get_default_options` from `src/lib.rs`. -/
def get_default_options : Options :=
  { string_strictness := .Loose, string_strictness_behavior := .Ignore }

/-- `ConfigReadError`: the union of the error variants across the
revisions (`src/errors.rs` declares `FileNotFound` and
`InvalidSyntaxOnLine`; the flattened revision's `Config::get` in
`src/config.rs` uses `GroupNotFound` and `KeyInGroupNotFound`). -/
inductive ConfigReadError where
  | FileNotFound
  | InvalidSyntaxOnLine
  | GroupNotFound
  | KeyInGroupNotFound
deriving DecidableEq

/-- `ConfigValueError` from `src/errors.rs`. -/
inductive ConfigValueError where
  | InvalidBoolValue
deriving DecidableEq

/-- `ConfigurationItem` from `src/group.rs`. -/
structure ConfigurationItem where
  key : List Char
  value : List Char
deriving DecidableEq

/-- `Group` from `src/group.rs`: a map of keys to configuration items,
modelled as an association list with unique keys. -/
structure Group where
  pairs : List (List Char × ConfigurationItem)
deriving DecidableEq

/-- `Group::new` from `src/group.rs`. -/
def Group.new : Group := ⟨[]⟩

/-- HashMap `insert`: replace the value stored under `k` when present,
append the binding otherwise. -/
def upsert {α : Type} (k : List Char) (v : α) :
    List (List Char × α) → List (List Char × α)
  | [] => [(k, v)]
  | (k', v') :: t => if k' = k then (k, v) :: t else (k', v') :: upsert k v t

/-- HashMap `get`: the value stored under `k`, when present. -/
def lookupAL {α : Type} (k : List Char) : List (List Char × α) → Option α
  | [] => none
  | (k', v') :: t => if k' = k then some v' else lookupAL k t

/-- The structured `Config` built by `parse_config_file` in `src/lib.rs`
(`map` of groups plus the builder's `cursor`). -/
structure Config where
  map : List (List Char × Group)
  cursor : Option (List Char)
deriving DecidableEq

/-- Modelled from the spec: `Config::add_group`, whose body is not among
the repository's files (only its caller in `src/lib.rs` is).  Per §4.3,
opening a group named `name` installs an empty group under `name`
(replacing an existing group of that name wholesale) and sets it as the
`cursor`. -/
def Config.add_group (c : Config) (name : List Char) : Config :=
  { map := upsert name Group.new c.map, cursor := some name }

/-- Modelled from the spec: `Config::insert`, whose body is not among the
repository's files (only its caller in `src/lib.rs` is).  Per §4.3, an
item is upserted into the currently open group (the `cursor`), and "an
Item encountered before any group header is a no-op (dropped) — no group
exists to receive it". -/
def Config.insert (c : Config) (item : ConfigurationItem) : Config :=
  match c.cursor with
  | none => c
  | some g =>
    { c with
      map := c.map.map fun p =>
        if p.1 = g then (p.1, ⟨upsert item.key item p.2.pairs⟩) else p }

/-- `parse_line` from `src/lib.rs`.  The `none` arm of the outer match is
unreachable in the pipeline: `parse_config_file` calls `parse_line` only
after `regex.item_any.is_match` succeeded on the line. -/
def parse_line (line : List Char) (options : Options) :
    Option (List Char × List Char) :=
  match item_split line with
  | none => none
  | some (k, v) =>
    let key := trim k
    let val := trim v
    let has_quotes := (has_quotes_split val).isSome
    let has_whitespace := has_whitespace_match val
    let is_string := !non_string_type_match val
    if is_string && !has_quotes && options.string_strictness = .Very then
      none
    else if is_string && !has_quotes && has_whitespace
        && options.string_strictness = .Forgivable then
      none
    else
      some (key, match has_quotes_split val with
                 | some inner => inner
                 | none => val)

/-- `is_line_valid` from `src/lib.rs`. -/
def is_line_valid (line : List Char) : Bool :=
  comment_match line || (group_split line).isSome
    || empty_line_match line || (item_split line).isSome

/-- The outcome of one call of `parse_config_file`: a `Config`, an error
result, or a `panic!` (the fatal abort taken when a strictness-rejected
line meets `StringStrictnessBehavior::Panic`). -/
inductive ParseOutcome where
  | ok (config : Config)
  | err (e : ConfigReadError)
  | panicked
deriving DecidableEq

/-- The loop body of `parse_config_file` from `src/lib.rs`, iterated over
the remaining lines with the accumulated `Config`: each raw line is
trimmed, checked by `is_line_valid` (abort with `InvalidSyntaxOnLine`),
then handed to the group branch and the item branch. -/
def parse_lines (opts : Options) : List (List Char) → Config → ParseOutcome
  | [], c => .ok c
  | l :: ls, c =>
    let ln := trim l
    if is_line_valid ln then
      let c1 := match group_split ln with
                | some name => c.add_group name
                | none => c
      match item_split ln with
      | some _ =>
        match parse_line ln opts with
        | some (k, v) => parse_lines opts ls (c1.insert ⟨k, v⟩)
        | none =>
          if opts.string_strictness_behavior = .Panic then .panicked
          else parse_lines opts ls c1
      | none => parse_lines opts ls c1
    else .err .InvalidSyntaxOnLine

/-- `parse_config_file` from `src/lib.rs`, over the file's lines. -/
def parse_config_file (lines : List (List Char)) (options : Options) :
    ParseOutcome :=
  parse_lines options lines { map := [], cursor := none }

/-- `ConfigReader::read` from `src/lib.rs`.  The file system is an
explicit parameter `fs`, sending a path to the lines of the file it
resolves to, or `none` when `Path::exists` is false (the `FileNotFound`
check happens before any line is read). -/
def ConfigReader.read (fs : String → Option (List (List Char)))
    (filename : String) (options : Option Options) : ParseOutcome :=
  let opts := options.getD get_default_options
  match fs filename with
  | none => .err .FileNotFound
  | some lines => parse_config_file lines opts

/-- `ConfigurationItem::as_bool` from `src/group.rs`, an if-chain
mirroring the `match` on the value string. -/
def ConfigurationItem.as_bool (item : ConfigurationItem) :
    Except ConfigValueError Bool :=
  if item.value = ['1'] then .ok true
  else if item.value = ['t', 'r', 'u', 'e'] then .ok true
  else if item.value = ['y', 'e', 's'] then .ok true
  else if item.value = ['o', 'n'] then .ok true
  else if item.value = ['0'] then .ok false
  else if item.value = ['f', 'a', 'l', 's', 'e'] then .ok false
  else if item.value = ['n', 'o'] then .ok false
  else if item.value = ['o', 'f', 'f'] then .ok false
  else .error .InvalidBoolValue

/-- `ConfigurationItem::as_bool_grf` from `src/group.rs`
(`as_bool().unwrap_or(false)`). -/
def ConfigurationItem.as_bool_grf (item : ConfigurationItem) : Bool :=
  match item.as_bool with
  | .ok b => b
  | .error _ => false

end RustConfigReader

namespace Flattened

/-- The flattened revision's `Config` from `src/config.rs`:
`map : HashMap<String, HashMap<String, String>>`, modelled as an
association list of groups, each an association list of key/value
strings. -/
structure Config where
  map : List (String × List (String × String))
deriving DecidableEq

/-- `Config::has_group` from `src/config.rs`
(`self.map.contains_key(group)`). -/
def Config.has_group (c : Config) (group : String) : Bool :=
  (c.map.lookup group).isSome

/-- `Config::get` from `src/config.rs`: `GroupNotFound` when the group is
absent, else `KeyInGroupNotFound` when the key is absent from the group,
else the stored value. -/
def Config.get (c : Config) (group key : String) :
    Except RustConfigReader.ConfigReadError String :=
  if c.has_group group = false then .error .GroupNotFound
  else
    match c.map.lookup group with
    | none => .error .GroupNotFound
    | some properties =>
      match properties.lookup key with
      | none => .error .KeyInGroupNotFound
      | some v => .ok v

/-- `Config::get_or` from `src/config.rs`
(`self.get(group, key).unwrap_or(fallback.to_string())`). -/
def Config.get_or (c : Config) (group key fallback : String) : String :=
  match c.get group key with
  | .ok v => v
  | .error _ => fallback

/-- `Config::keys` from `src/config.rs`
(`self.map.get(group).unwrap().keys()`): the `unwrap` panics when the
group is absent, modelled as `none`. -/
def Config.keys (c : Config) (group : String) : Option (List String) :=
  (c.map.lookup group).map fun properties => properties.map Prod.fst

end Flattened

namespace RustConfigReader

/-- Dropping while a predicate holds passes over a prefix on which the
predicate holds everywhere. -/
lemma dropWhile_append_all {p : Char → Bool} :
    ∀ {l₁ : List Char} (l₂ : List Char), (∀ a ∈ l₁, p a = true) →
      (l₁ ++ l₂).dropWhile p = l₂.dropWhile p
  | [], l₂, _ => rfl
  | a :: t, l₂, h => by
    have ha : p a = true := h a (List.mem_cons_self a t)
    simp only [List.cons_append, List.dropWhile_cons, ha, if_true]
    exact dropWhile_append_all l₂ fun x hx => h x (List.mem_cons_of_mem a hx)

/-- A line matching the item regex also passes `is_line_valid`. -/
lemma item_split_isSome_valid {l : List Char} (h : (item_split l).isSome) :
    is_line_valid l = true := by
  simp [is_line_valid, h]

/-- A line matching the item regex starts with `[a-z]`, so it does not
match the group regex. -/
lemma item_split_group_none {l : List Char} (h : (item_split l).isSome) :
    group_split l = none := by
  cases l with
  | nil => simp [item_split] at h
  | cons c t =>
    by_cases hc : isLowerAlpha c = true
    · have hne : ¬ (c = '[') := by
        intro he
        rw [he] at hc
        simp [isLowerAlpha] at hc
      simp [group_split, hne]
    · simp [item_split, hc] at h

end RustConfigReader

namespace RustConfigReader

/-- Claim C1: for a grammatically valid Item line whose trimmed value is
unquoted and string-like (it does not match the non-string-primitive
pattern), `Loose` strictness accepts the value as-is, `Forgivable`
strictness accepts it exactly when it contains no whitespace, and `Very`
strictness rejects it. -/
theorem c1_strictness_on_unquoted_string_values
    (opts : Options) (line k tail : List Char)
    (hsplit : item_split line = some (k, tail))
    (hq : has_quotes_split (trim tail) = none)
    (hns : non_string_type_match (trim tail) = false) :
    (opts.string_strictness = .Loose →
      parse_line line opts = some (trim k, trim tail)) ∧
    (opts.string_strictness = .Forgivable →
      (parse_line line opts = some (trim k, trim tail) ↔
        has_whitespace_match (trim tail) = false)) ∧
    (opts.string_strictness = .Very → parse_line line opts = none) := by
  refine ⟨?_, ?_, ?_⟩ <;> intro hmode
  · simp [parse_line, hsplit, hq, hns, hmode]
  · by_cases hw : has_whitespace_match (trim tail) = true
    · simp [parse_line, hsplit, hq, hns, hmode, hw]
    · simp at hw
      simp [parse_line, hsplit, hq, hns, hmode, hw]
  · simp [parse_line, hsplit, hq, hns, hmode]

/-- Claim C1 witness: on the line `k=a b` (unquoted, string-like,
whitespace inside) the value is accepted under Loose and rejected under
Very. -/
theorem c1_witness :
    parse_line ['k', '=', 'a', ' ', 'b'] ⟨.Loose, .Ignore⟩
        = some (['k'], ['a', ' ', 'b']) ∧
    parse_line ['k', '=', 'a', ' ', 'b'] ⟨.Very, .Ignore⟩ = none := by
  constructor
  · exact (c1_strictness_on_unquoted_string_values ⟨.Loose, .Ignore⟩
      ['k', '=', 'a', ' ', 'b'] ['k'] ['a', ' ', 'b'] (by decide) (by decide)
      (by decide)).1 rfl
  · exact (c1_strictness_on_unquoted_string_values ⟨.Very, .Ignore⟩
      ['k', '=', 'a', ' ', 'b'] ['k'] ['a', ' ', 'b'] (by decide) (by decide)
      (by decide)).2.2 rfl

end RustConfigReader

namespace RustConfigReader

/-- The quote-capture regex on a value of the shape `"inner"`. -/
lemma has_quotes_split_quoted (inner : List Char) :
    has_quotes_split ('"' :: (inner ++ ['"'])) = some inner := by
  simp [has_quotes_split]

/-- Claim C3: an Item line whose trimmed value is wrapped in double
quotes is accepted under every strictness mode, and the stored value is
exactly the inner text with the surrounding quotes stripped — whitespace
inside the quotes included. -/
theorem c3_quoted_value_round_trip
    (opts : Options) (line k tail inner : List Char)
    (hsplit : item_split line = some (k, tail))
    (hval : trim tail = '"' :: (inner ++ ['"'])) :
    parse_line line opts = some (trim k, inner) := by
  have hq : has_quotes_split (trim tail) = some inner := by
    rw [hval]; exact has_quotes_split_quoted inner
  simp [parse_line, hsplit, hq]

/-- Claim C3 witness: `k="a b"` parses to the unquoted inner text
`a b` under the strictest mode. -/
theorem c3_witness :
    parse_line ['k', '=', '"', 'a', ' ', 'b', '"'] ⟨.Very, .Panic⟩
      = some (['k'], ['a', ' ', 'b']) :=
  c3_quoted_value_round_trip ⟨.Very, .Panic⟩
    ['k', '=', '"', 'a', ' ', 'b', '"'] ['k'] ['"', 'a', ' ', 'b', '"']
    ['a', ' ', 'b'] (by decide) (by decide)

end RustConfigReader

namespace RustConfigReader

/-- Claim C8: `as_bool` returns `Ok(true)` exactly on `1`, `true`, `yes`,
`on`, `Ok(false)` exactly on `0`, `false`, `no`, `off`, and
`InvalidBoolValue` on every other value; `as_bool_grf` is true exactly
when `as_bool` is `Ok(true)`. -/
theorem c8_as_bool_token_sets (item : ConfigurationItem) :
    (item.as_bool = .ok true ↔
      item.value ∈ [['1'], ['t', 'r', 'u', 'e'], ['y', 'e', 's'], ['o', 'n']]) ∧
    (item.as_bool = .ok false ↔
      item.value ∈ [['0'], ['f', 'a', 'l', 's', 'e'], ['n', 'o'], ['o', 'f', 'f']]) ∧
    (item.as_bool = .error .InvalidBoolValue ↔
      (item.value ∉ [['1'], ['t', 'r', 'u', 'e'], ['y', 'e', 's'], ['o', 'n']] ∧
       item.value ∉ [['0'], ['f', 'a', 'l', 's', 'e'], ['n', 'o'], ['o', 'f', 'f']])) ∧
    (item.as_bool_grf = true ↔ item.as_bool = .ok true) := by
  unfold ConfigurationItem.as_bool_grf ConfigurationItem.as_bool
  split_ifs <;> simp_all

end RustConfigReader

/-- Claim C7: the flattened two-level lookup returns `GroupNotFound`
exactly when the group is absent, `KeyInGroupNotFound` exactly when the
group exists but lacks the key, and otherwise the stored value. -/
theorem Flattened.c7_two_level_get (c : Flattened.Config) (group key : String) :
    (c.get group key = .error .GroupNotFound ↔ c.map.lookup group = none) ∧
    (c.get group key = .error .KeyInGroupNotFound ↔
      ∃ properties, c.map.lookup group = some properties ∧
        properties.lookup key = none) ∧
    (∀ v, c.get group key = .ok v ↔
      ∃ properties, c.map.lookup group = some properties ∧
        properties.lookup key = some v) := by
  unfold Flattened.Config.get Flattened.Config.has_group
  cases hg : c.map.lookup group with
  | none =>
    refine ⟨by simp [hg], ?_, ?_⟩
    · simp only [hg, Option.isSome_none]
      constructor
      · intro h; simp at h
      · rintro ⟨p, hp, -⟩; simp [hg] at hp
    · intro v
      simp only [hg, Option.isSome_none]
      constructor
      · intro h; simp at h
      · rintro ⟨p, hp, -⟩; simp [hg] at hp
  | some properties =>
    cases hk : properties.lookup key with
    | none =>
      refine ⟨?_, ?_, ?_⟩
      · simp only [hg, hk, Option.isSome_some]
        constructor
        · intro h; simp at h
        · intro h; simp [hg] at h
      · simp only [hg, hk, Option.isSome_some]
        constructor
        · intro _; exact ⟨properties, rfl, hk⟩
        · intro _; simp
      · intro v
        simp only [hg, hk, Option.isSome_some]
        constructor
        · intro h; simp at h
        · rintro ⟨p, hp, hkv⟩
          cases hp
          rw [hk] at hkv; cases hkv
    | some v0 =>
      refine ⟨?_, ?_, ?_⟩
      · simp only [hg, hk, Option.isSome_some]
        constructor
        · intro h; simp at h
        · intro h; simp [hg] at h
      · simp only [hg, hk, Option.isSome_some]
        constructor
        · intro h; simp at h
        · rintro ⟨p, hp, hkn⟩
          cases hp
          rw [hk] at hkn; cases hkn
      · intro v
        simp only [hg, hk, Option.isSome_some]
        constructor
        · intro h
          simp at h
          exact ⟨properties, rfl, h ▸ hk⟩
        · rintro ⟨p, hp, hkv⟩
          cases hp
          rw [hk] at hkv
          cases hkv
          simp

/-- Claim C10: `Config::keys` of the flattened revision is partial at the
public interface: it panics (the `unwrap` of a `None` lookup, modelled as
`none`) exactly when the group is absent from the map, and under the
precondition that the group exists it returns the group's key list. -/
theorem Flattened.c10_keys_partial (c : Flattened.Config) (group : String) :
    (c.keys group = none ↔ c.has_group group = false) ∧
    (∀ properties, c.map.lookup group = some properties →
      c.keys group = some (properties.map Prod.fst)) := by
  unfold Flattened.Config.keys Flattened.Config.has_group
  constructor
  · cases hg : c.map.lookup group with
    | none => simp
    | some properties => simp
  · intro properties hp
    rw [hp]
    rfl

namespace RustConfigReader

/-- Claim C9: when the path does not resolve to an existing file,
`ConfigReader::read` returns `FileNotFound`, for every options value and
independently of the rest of the file system (no line of any file is
consulted). -/
theorem c9_missing_file (fs : String → Option (List (List Char)))
    (filename : String) (options : Option Options)
    (h : fs filename = none) :
    ConfigReader.read fs filename options = .err .FileNotFound := by
  simp [ConfigReader.read, h]

/-- Claim C9 witness: reading `missing.cfg` from an empty file system
fails with `FileNotFound`. -/
theorem c9_witness :
    ConfigReader.read (fun _ => none) "missing.cfg" none
      = .err .FileNotFound :=
  c9_missing_file (fun _ => none) "missing.cfg" none rfl

end RustConfigReader

namespace RustConfigReader

/-- Whitespace characters belong to neither `[a-z]` nor `[a-z_]`. -/
lemma isWs_not_keyChar {c : Char} (h : isWs c = true) : isKeyChar c = false := by
  by_contra hk
  simp only [Bool.not_eq_false] at hk
  unfold isKeyChar isLowerAlpha at hk
  unfold isWs at h
  simp only [Bool.or_eq_true, decide_eq_true_eq, Bool.and_eq_true] at h hk
  have hval : (97 ≤ c.toNat ∧ c.toNat ≤ 122) ∨ c.toNat = 95 := by
    rcases hk with hk | hk
    · exact Or.inl hk
    · right
      subst hk
      decide
  rcases hval with ⟨h1, h2⟩ | h1 <;>
    rcases h with ((((((((((((((((((((((((h | h) | h) | h) | h) | h) | h) | h) | h) | h) | h) | h) | h) | h) | h) | h) | h) | h) | h) | h) | h) | h) | h) | h) | h) <;> omega

/-- The loop body of `parse_config_file` as a transformation of the
accumulated `Config`, for a line that neither aborts the parse nor
panics. -/
def step_config (opts : Options) (ln : List Char) (c : Config) : Config :=
  let c1 := match group_split ln with
            | some name => c.add_group name
            | none => c
  match item_split ln with
  | some _ =>
    match parse_line ln opts with
    | some (k, v) => c1.insert ⟨k, v⟩
    | none => c1
  | none => c1

/-- The strictness-policy panic: the trimmed line is a grammatically
valid Item, the normalizer rejects it, and the behavior option is
`Panic`. -/
def strictness_panics (opts : Options) (l : List Char) : Prop :=
  (item_split (trim l)).isSome = true ∧ parse_line (trim l) opts = none ∧
    opts.string_strictness_behavior = .Panic

instance (opts : Options) (l : List Char) : Decidable (strictness_panics opts l) := by
  unfold strictness_panics
  infer_instance

/-- One iteration of the `parse_config_file` loop, stated as a case
split: an invalid line aborts with `InvalidSyntaxOnLine`, a
strictness-rejected item under `Panic` behavior panics, and any other
line continues with `step_config` applied. -/
lemma parse_lines_cons (opts : Options) (p : List Char)
    (rest : List (List Char)) (c : Config) :
    parse_lines opts (p :: rest) c =
      if is_line_valid (trim p) = true then
        if strictness_panics opts p then .panicked
        else parse_lines opts rest (step_config opts (trim p) c)
      else .err .InvalidSyntaxOnLine := by
  simp only [parse_lines, step_config, strictness_panics]
  by_cases hv : is_line_valid (trim p) = true
  · simp only [hv, if_true]
    cases hi : item_split (trim p) with
    | none => simp [hi]
    | some kv =>
      cases hp : parse_line (trim p) opts with
      | none =>
        by_cases hb : opts.string_strictness_behavior = .Panic
        · simp [hi, hp, hb]
        · simp [hi, hp, hb]
      | some kv2 => simp [hi, hp]
  · simp [hv]

end RustConfigReader

namespace RustConfigReader

/-- A prefix of lines that are all grammatically valid and none of which
triggers the strictness panic is consumed without aborting: the parse
continues into the remaining lines from some accumulated `Config`. -/
lemma parse_lines_clean_prefix (opts : Options) :
    ∀ (pre rest : List (List Char)) (c : Config),
      (∀ l ∈ pre, is_line_valid (trim l) = true) →
      (∀ l ∈ pre, ¬ strictness_panics opts l) →
      ∃ c', parse_lines opts (pre ++ rest) c = parse_lines opts rest c'
  | [], rest, c, _, _ => ⟨c, rfl⟩
  | p :: t, rest, c, hv, hp => by
    have hvp : is_line_valid (trim p) = true := hv p (List.mem_cons_self p t)
    have hpp : ¬ strictness_panics opts p := hp p (List.mem_cons_self p t)
    rw [List.cons_append, parse_lines_cons, if_pos hvp, if_neg hpp]
    exact parse_lines_clean_prefix opts t rest (step_config opts (trim p) c)
      (fun l hl => hv l (List.mem_cons_of_mem p hl))
      (fun l hl => hp l (List.mem_cons_of_mem p hl))

/-- A run over lines that are all grammatically valid never returns
`InvalidSyntaxOnLine`. -/
lemma parse_lines_all_valid (opts : Options) :
    ∀ (lines : List (List Char)) (c : Config),
      (∀ l ∈ lines, is_line_valid (trim l) = true) →
      parse_lines opts lines c ≠ .err .InvalidSyntaxOnLine
  | [], c, _ => by simp [parse_lines]
  | p :: t, c, hv => by
    have hvp : is_line_valid (trim p) = true := hv p (List.mem_cons_self p t)
    rw [parse_lines_cons, if_pos hvp]
    by_cases hpp : strictness_panics opts p
    · simp [hpp]
    · rw [if_neg hpp]
      exact parse_lines_all_valid opts t (step_config opts (trim p) c)
        (fun l hl => hv l (List.mem_cons_of_mem p hl))

/-- Claim C2 (amended): a line matching none of the four grammar shapes
aborts the parse with `InvalidSyntaxOnLine` provided every earlier line
is grammatically valid and none of them triggers the strictness panic;
conversely, a parse over lines that all match one of the four shapes
never returns `InvalidSyntaxOnLine`. -/
theorem c2_invalid_line_aborts (opts : Options) (lines : List (List Char)) :
    (∀ pre bad suf, lines = pre ++ bad :: suf →
      (∀ l ∈ pre, is_line_valid (trim l) = true) →
      (∀ l ∈ pre, ¬ strictness_panics opts l) →
      is_line_valid (trim bad) = false →
      parse_config_file lines opts = .err .InvalidSyntaxOnLine) ∧
    ((∀ l ∈ lines, is_line_valid (trim l) = true) →
      parse_config_file lines opts ≠ .err .InvalidSyntaxOnLine) := by
  constructor
  · intro pre bad suf heq hv hp hbad
    subst heq
    unfold parse_config_file
    obtain ⟨c', hc'⟩ :=
      parse_lines_clean_prefix opts pre (bad :: suf) ⟨[], none⟩ hv hp
    rw [hc', parse_lines_cons, if_neg (by simp [hbad])]
  · intro hv
    exact parse_lines_all_valid opts lines ⟨[], none⟩ hv

/-- Claim C2 counterexample: under `Very` strictness with `Panic`
behavior, the rejected item `x = a` on the first line panics before the
grammatically invalid second line `???` is reached, so the parse does
not return `InvalidSyntaxOnLine` although a line matches none of the
four shapes. -/
theorem c2_counterexample :
    is_line_valid (trim ['?', '?', '?']) = false ∧
    parse_config_file [['x', ' ', '=', ' ', 'a'], ['?', '?', '?']]
        ⟨.Very, .Panic⟩ = .panicked ∧
    parse_config_file [['x', ' ', '=', ' ', 'a'], ['?', '?', '?']]
        ⟨.Very, .Panic⟩ ≠ .err .InvalidSyntaxOnLine := by
  refine ⟨by decide, by decide, by decide⟩

/-- Claim C2 witness: the invalid line `???` after the comment `# c`
aborts the parse with `InvalidSyntaxOnLine`, and the one-comment file
parses without that error. -/
theorem c2_witness :
    parse_config_file [['#', ' ', 'c'], ['?', '?', '?']] get_default_options
        = .err .InvalidSyntaxOnLine ∧
    parse_config_file [['#', ' ', 'c']] get_default_options
        ≠ .err .InvalidSyntaxOnLine := by
  constructor
  · exact (c2_invalid_line_aborts get_default_options
      [['#', ' ', 'c'], ['?', '?', '?']]).1 [['#', ' ', 'c']] ['?', '?', '?'] []
      rfl (by decide) (by decide) (by decide)
  · exact (c2_invalid_line_aborts get_default_options [['#', ' ', 'c']]).2
      (by decide)

end RustConfigReader

namespace RustConfigReader

/-- Processing a strictness-rejected item line under `Ignore` behavior
leaves the accumulated `Config` unchanged. -/
lemma step_config_rejected {opts : Options} {ln : List Char} (c : Config)
    (hitem : (item_split ln).isSome = true)
    (hrej : parse_line ln opts = none) :
    step_config opts ln c = c := by
  unfold step_config
  rw [item_split_group_none hitem]
  cases hi : item_split ln with
  | none => rfl
  | some kv => simp [hrej]

/-- Dropping a strictness-rejected item line from the document does not
change the parse under `Ignore` behavior, wherever the line occurs. -/
lemma parse_lines_skip_rejected (opts : Options) (l : List Char)
    (hitem : (item_split (trim l)).isSome = true)
    (hrej : parse_line (trim l) opts = none)
    (hb : opts.string_strictness_behavior = .Ignore) :
    ∀ (pre suf : List (List Char)) (c : Config),
      parse_lines opts (pre ++ l :: suf) c = parse_lines opts (pre ++ suf) c
  | [], suf, c => by
    have hnp : ¬ strictness_panics opts l := by
      intro h
      rw [h.2.2] at hb
      cases hb
    rw [List.nil_append, List.nil_append, parse_lines_cons,
      if_pos (item_split_isSome_valid hitem), if_neg hnp,
      step_config_rejected c hitem hrej]
  | p :: t, suf, c => by
    rw [List.cons_append, List.cons_append, parse_lines_cons, parse_lines_cons]
    by_cases hv : is_line_valid (trim p) = true
    · rw [if_pos hv, if_pos hv]
      by_cases hpp : strictness_panics opts p
      · rw [if_pos hpp, if_pos hpp]
      · rw [if_neg hpp, if_neg hpp,
          parse_lines_skip_rejected opts l hitem hrej hb t suf
            (step_config opts (trim p) c)]
    · rw [if_neg hv, if_neg hv]

/-- Claim C6: a grammatically valid Item line rejected by the strictness
policy is, under `Ignore` behavior, silently skipped (the parse is the
same as if the line were absent, so the item is never inserted and no
error arises), and under `Panic` behavior aborts processing fatally at
that line; in neither case is the rejection reported as
`InvalidSyntaxOnLine`. -/
theorem c6_rejection_behavior (opts : Options) (pre suf : List (List Char))
    (l : List Char)
    (hitem : (item_split (trim l)).isSome = true)
    (hrej : parse_line (trim l) opts = none) :
    (opts.string_strictness_behavior = .Ignore →
      parse_config_file (pre ++ l :: suf) opts
        = parse_config_file (pre ++ suf) opts) ∧
    (opts.string_strictness_behavior = .Panic →
      (∀ p ∈ pre, is_line_valid (trim p) = true) →
      (∀ p ∈ pre, ¬ strictness_panics opts p) →
      parse_config_file (pre ++ l :: suf) opts = .panicked) := by
  constructor
  · intro hb
    exact parse_lines_skip_rejected opts l hitem hrej hb pre suf ⟨[], none⟩
  · intro hb hv hp
    unfold parse_config_file
    obtain ⟨c', hc'⟩ :=
      parse_lines_clean_prefix opts pre (l :: suf) ⟨[], none⟩ hv hp
    rw [hc', parse_lines_cons, if_pos (item_split_isSome_valid hitem),
      if_pos ⟨hitem, hrej, hb⟩]

/-- Claim C6 witness: the multi-word unquoted item `x = a b` under
`Forgivable` strictness is skipped without error under `Ignore` behavior
and panics under `Panic` behavior. -/
theorem c6_witness :
    parse_config_file [['[', 'g', ']'], ['x', ' ', '=', ' ', 'a', ' ', 'b']]
        ⟨.Forgivable, .Ignore⟩
      = parse_config_file [['[', 'g', ']']] ⟨.Forgivable, .Ignore⟩ ∧
    parse_config_file [['[', 'g', ']'], ['x', ' ', '=', ' ', 'a', ' ', 'b']]
        ⟨.Forgivable, .Panic⟩ = .panicked := by
  constructor
  · exact (c6_rejection_behavior ⟨.Forgivable, .Ignore⟩ [['[', 'g', ']']] []
      ['x', ' ', '=', ' ', 'a', ' ', 'b'] (by decide) (by decide)).1 rfl
  · exact (c6_rejection_behavior ⟨.Forgivable, .Panic⟩ [['[', 'g', ']']] []
      ['x', ' ', '=', ' ', 'a', ' ', 'b'] (by decide) (by decide)).2 rfl
      (by decide) (by decide)

end RustConfigReader

namespace RustConfigReader

/-- Over a line with no group-header match, `step_config` preserves an
unset cursor, and with an unset cursor it leaves the `Config` entirely
unchanged (an inserted item has no group to land in). -/
lemma step_config_no_group {opts : Options} {ln : List Char} (c : Config)
    (hg : group_split ln = none) (hc : c.cursor = none) :
    step_config opts ln c = c := by
  unfold step_config
  rw [hg]
  cases hi : item_split ln with
  | none => rfl
  | some kv =>
    cases hp : parse_line ln opts with
    | none => rfl
    | some kv2 =>
      obtain ⟨k, v⟩ := kv2
      simp only [Config.insert, hc]

/-- Claim C4 (amended): an Item line occurring before any group header,
when it does not trigger the strictness panic (it is accepted by the
normalizer, or the behavior option is `Ignore`), is silently dropped:
the parse of the document is identical to the parse of the document
without that line, so the line never aborts the parse and its key
appears in no group of the returned `Config`. -/
theorem c4_item_before_group_dropped (opts : Options)
    (pre suf : List (List Char)) (l : List Char)
    (hpre : ∀ p ∈ pre, group_split (trim p) = none)
    (hitem : (item_split (trim l)).isSome = true)
    (hnp : ¬ strictness_panics opts l) :
    parse_config_file (pre ++ l :: suf) opts
      = parse_config_file (pre ++ suf) opts := by
  unfold parse_config_file
  suffices h : ∀ (pre' : List (List Char)) (c : Config),
      (∀ p ∈ pre', group_split (trim p) = none) → c.cursor = none →
      parse_lines opts (pre' ++ l :: suf) c = parse_lines opts (pre' ++ suf) c by
    exact h pre ⟨[], none⟩ hpre rfl
  intro pre'
  induction pre' with
  | nil =>
    intro c _ hc
    rw [List.nil_append, List.nil_append, parse_lines_cons,
      if_pos (item_split_isSome_valid hitem), if_neg hnp,
      step_config_no_group c (item_split_group_none hitem) hc]
  | cons p t ih =>
    intro c hg hc
    have hgp : group_split (trim p) = none := hg p (List.mem_cons_self p t)
    rw [List.cons_append, List.cons_append, parse_lines_cons, parse_lines_cons]
    by_cases hv : is_line_valid (trim p) = true
    · rw [if_pos hv, if_pos hv]
      by_cases hpp : strictness_panics opts p
      · rw [if_pos hpp, if_pos hpp]
      · rw [if_neg hpp, if_neg hpp]
        have hstep : (step_config opts (trim p) c).cursor = none := by
          unfold step_config
          rw [hgp]
          cases hi : item_split (trim p) with
          | none => exact hc
          | some kv =>
            cases hpl : parse_line (trim p) opts with
            | none => exact hc
            | some kv2 =>
              obtain ⟨k, v⟩ := kv2
              simp only [Config.insert, hc]
        exact ih (step_config opts (trim p) c)
          (fun q hq => hg q (List.mem_cons_of_mem p hq)) hstep
    · rw [if_neg hv, if_neg hv]

/-- Claim C4 witness: the accepted item `a = b` before the first group
header is dropped — the parse equals the parse without it, and the
resulting `Config` has no group containing the key `a`. -/
theorem c4_witness :
    parse_config_file [['a', ' ', '=', ' ', 'b'], ['[', 'g', ']']]
        get_default_options
      = parse_config_file [['[', 'g', ']']] get_default_options ∧
    parse_config_file [['a', ' ', '=', ' ', 'b'], ['[', 'g', ']']]
        get_default_options
      = .ok ⟨[(['g'], ⟨[]⟩)], some ['g']⟩ := by
  constructor
  · exact c4_item_before_group_dropped get_default_options []
      [['[', 'g', ']']] ['a', ' ', '=', ' ', 'b'] (by decide) (by decide)
      (by decide)
  · decide

/-- Claim C4 counterexample: under `Very` strictness with `Panic`
behavior, the string-like item `x = a` before any group header does
cause the parse to fail (it panics), so an Item line before any group
header is not always harmless. -/
theorem c4_counterexample :
    parse_config_file [['x', ' ', '=', ' ', 'a'], ['[', 'g', ']']]
        ⟨.Very, .Panic⟩ = .panicked := by
  decide

end RustConfigReader

namespace RustConfigReader

/-- Claim C5 (amended): a trimmed line formed of a key matching
`[a-z][a-z_]*`, an `=` padded with at most one whitespace character on
the left (the value tail can begin with at most one further whitespace
character, which `\s?` absorbs), and an arbitrary possibly-empty value
tail, is classified as a valid Item line and is never a syntax
violation. -/
theorem c5_item_line_shape (c0 : Char) (kt w tail : List Char)
    (hc0 : isLowerAlpha c0 = true)
    (hkt : ∀ a ∈ kt, isKeyChar a = true)
    (hw : w = [] ∨ ∃ cw, w = [cw] ∧ isWs cw = true) :
    (item_split ((c0 :: kt) ++ w ++ '=' :: tail)).isSome = true ∧
    is_line_valid ((c0 :: kt) ++ w ++ '=' :: tail) = true := by
  have hsome : (item_split ((c0 :: kt) ++ w ++ '=' :: tail)).isSome = true := by
    rcases hw with hw | ⟨cw, hw, hcw⟩
    · subst hw
      have h1 : (kt ++ '=' :: tail).dropWhile isKeyChar = '=' :: tail := by
        rw [dropWhile_append_all ('=' :: tail) hkt]
        simp [List.dropWhile_cons, show isKeyChar '=' = false from by decide]
      simp only [List.cons_append, List.nil_append, List.append_nil, item_split, hc0, if_true]
      rw [h1]
      simp
    · subst hw
      have hcwk : isKeyChar cw = false := isWs_not_keyChar hcw
      have hcwne : ¬ (cw = '=') := by
        intro h
        subst h
        exact absurd hcw (by decide)
      have h1 : (kt ++ cw :: '=' :: tail).dropWhile isKeyChar
          = cw :: '=' :: tail := by
        rw [dropWhile_append_all (cw :: '=' :: tail) hkt]
        simp [List.dropWhile_cons, hcwk]
      simp only [List.cons_append, List.append_assoc, List.singleton_append,
        List.nil_append, item_split, hc0, if_true]
      rw [h1]
      simp [hcwne, hcw]
  exact ⟨hsome, item_split_isSome_valid hsome⟩

/-- Claim C5 witness: the line `key_a =v`, with one space before the
`=`, is a valid Item line. -/
theorem c5_witness :
    is_line_valid ['k', 'e', 'y', '_', 'a', ' ', '=', 'v'] = true :=
  (c5_item_line_shape 'k' ['e', 'y', '_', 'a'] [' '] ['v'] (by decide)
    (by decide) (Or.inr ⟨' ', rfl, by decide⟩)).2

/-- Claim C5 counterexample: the regex `^([a-z][a-z_]*)\s?=\s?(.*?)$`
allows at most one whitespace character on each side of the `=`; the
trimmed line `k  =v`, whose `=` is padded with two spaces, is of the
claimed form (key, whitespace padding, `=`, tail) yet is a syntax
violation that aborts the parse. -/
theorem c5_counterexample :
    is_line_valid ['k', ' ', ' ', '=', 'v'] = false ∧
    parse_config_file [['k', ' ', ' ', '=', 'v']] get_default_options
      = .err .InvalidSyntaxOnLine := by
  refine ⟨by decide, by decide⟩

end RustConfigReader
